import Mathlib

/-!
Shallow embedding of the real-time motor-control core of the
ME-507 term project (ESP32 + DRV8308 BLDC driver).

Sources embedded here:
  - src/src/CtrlTasks.cpp : task_readActual (speed estimator),
    task_speedControl (speed control state machine), sign helper
  - Controller.cpp (src/unnamed/part_001) : Controller::calculate_omega
  - Driver.cpp (src/unnamed/part_000) : Driver::drv_write, Driver::cmd_speed_PWM

Machine integers are modelled as Nat with explicit mod 2^32 where the C code
does uint32_t arithmetic; float arithmetic is modelled exactly over the
rationals.
-/

namespace MotorCtrl

/-! ## Chip protocol driver (Driver.cpp) -/

/-- One observable event on the SPI bus or the chip-select / delay lines,
as produced by Driver::drv_write and Driver::drv_read. -/
inductive SPIEvent where
  | beginTransaction (clockHz : ℕ)
  | csAssert
  | csDeassert
  | delayUs (n : ℕ)
  | transferByte (b : ℕ)
  | endTransaction
deriving DecidableEq, Repr

/-- Embedding of Driver::drv_write (Driver.cpp lines 231-243): the exact
sequence of bus events emitted for one register write.  The header byte is
(0u << 7) | (addr7 & 0x7F); the value goes out most-significant byte first.
The argument message is a uint16_t, hence the mod 65536. -/
def drv_write (addr7 message : ℕ) : List SPIEvent :=
  [SPIEvent.beginTransaction 10000,
   SPIEvent.csAssert,
   SPIEvent.delayUs 1,
   SPIEvent.transferByte ((0 <<< 7) ||| (addr7 &&& 0x7F)),
   SPIEvent.transferByte ((message % 65536) >>> 8),
   SPIEvent.transferByte ((message % 65536) &&& 0xFF),
   SPIEvent.delayUs 1,
   SPIEvent.csDeassert,
   SPIEvent.endTransaction,
   SPIEvent.delayUs 5]

/-- The bytes actually shifted out on MOSI during a trace of bus events. -/
def transferredBytes : List SPIEvent → List ℕ
  | [] => []
  | SPIEvent.transferByte b :: rest => b :: transferredBytes rest
  | _ :: rest => transferredBytes rest

/-- Embedding of Driver::cmd_speed_PWM (Driver.cpp lines 286-291): the
frequency in Hz of the square wave written to CLKIN for a speed command. -/
def cmd_speed_PWM (SPEED_CMD : ℚ) : ℚ :=
  SPEED_CMD / 15

/-! ## Speed estimator (task_readActual, CtrlTasks.cpp lines 46-79) -/

/-- Wrap-around-safe uint32_t subtraction a - b, both operands reduced
mod 2^32 as the hardware registers are. -/
def sub32 (a b : ℕ) : ℕ :=
  (2 ^ 32 + a % 2 ^ 32 - b % 2 ^ 32) % 2 ^ 32

/-- State carried by task_readActual between loop iterations: the previous
edge timestamp (uint32_t, from micros()) and the current content of the
speed_actual share. -/
structure EstState where
  last_time : ℕ
  reg : ℚ
deriving DecidableEq, Repr

/-- One iteration of the task_readActual loop (CtrlTasks.cpp lines 56-78):
given the dequeued edge timestamp and the direction pin, update last_time,
and unless dt_us == 0 publish rpm = (1 / (dt_us / 1000000)) * (±15) into the
speed_actual share.  The second component is the value put into the share
on this iteration, if any. -/
def readActualStep (s : EstState) (current_time : ℕ) (dirPin : Bool) :
    EstState × Option ℚ :=
  let dt_us := sub32 current_time s.last_time
  if dt_us = 0 then
    (⟨current_time, s.reg⟩, none)
  else
    let frequency : ℚ := 1 / ((dt_us : ℚ) / 1000000)
    let rpm := if dirPin = false then frequency * 15 else frequency * (-15)
    (⟨current_time, rpm⟩, some rpm)

/-! ## Torque integrator (Controller.cpp) -/

/-- Flywheel moment of inertia J = 0.001712 kg m^2 (Controller.cpp line 15). -/
def J : ℚ := 1712 / 1000000

/-- The Arduino PI constant used by Controller.cpp, as an exact rational. -/
def PI : ℚ := 31415926535897932384626433832795 / 10 ^ 31

/-- Clamping of the integration step (Controller.cpp lines 42-50):
a step of at most 0 becomes 0.001 s, a step of at least 1 s becomes 1 s. -/
def clamp_dt (dt_s : ℚ) : ℚ :=
  if dt_s ≤ 0 then 1 / 1000
  else if 1 ≤ dt_s then 1
  else dt_s

/-- The angular-velocity clamp bound, 2 PI 2500 / 60 rad/s
(Controller.cpp line 65). -/
def omega_max_rad_s : ℚ := 2 * PI * 2500 / 60

/-- The two sequential clamping ifs of Controller.cpp lines 66-67. -/
def clamp_omega (w : ℚ) : ℚ :=
  let w1 := if w > omega_max_rad_s then omega_max_rad_s else w
  if w1 < -omega_max_rad_s then -omega_max_rad_s else w1

/-- Embedding of Controller::calculate_omega (Controller.cpp lines 31-73).
The raw elapsed time dt_s_raw = (now_ms - last_update_ms) / 1000 and the
current speed_actual share value are passed in explicitly; everything after
the millis() bookkeeping is translated line by line. -/
def calculate_omega (torque dt_s_raw actual : ℚ) : ℚ :=
  let dt_s := clamp_dt dt_s_raw
  let alpha := torque / J
  let torque_add := alpha * dt_s
  let omega_rad_s := torque_add + actual * (2 * PI / 60)
  clamp_omega omega_rad_s * (60 / (2 * PI))

/-! ## Speed control state machine (task_speedControl, CtrlTasks.cpp) -/

/-- Embedding of the sign helper (CtrlTasks.cpp lines 30-32):
(x >= 0.0f) ? +1 : -1, so sign 0 = +1. -/
def sign (x : ℚ) : ℤ :=
  if 0 ≤ x then 1 else -1

/-- A hardware-facing action issued by one iteration of task_speedControl. -/
inductive Action where
  | cmdSpeedPWM (rpm : ℚ)
  | brake
  | unbrake
  | setDir (d : Bool)
  | delayMs (n : ℕ)
deriving DecidableEq, Repr

/-- State carried by task_speedControl between loop iterations: the numeric
state tag (0 idle, 1 accel, 2 decel, 3 neg-to-pos crossing, 4 pos-to-neg
crossing), the stored speed_command local, and the direction pin level
(false = LOW = forward/positive). -/
structure SMState where
  tag : ℕ
  cmd : ℚ
  dirPin : Bool
deriving DecidableEq, Repr

/-- One iteration of the task_speedControl loop (CtrlTasks.cpp lines
123-300).  newCmd is the value dequeued from speed_cmd (only consumed when
the tag is 0, where the task blocks for it); actual is the value read from
the speed_actual share at the top of the iteration.  Returns the successor
state and the list of actions issued, in program order. -/
def smStep (s : SMState) (newCmd actual : ℚ) : SMState × List Action :=
  let direction := s.dirPin
  if s.tag = 0 then
    let c := newCmd
    if c > actual then
      if sign c = sign actual then
        if direction = false then
          (⟨1, c, direction⟩, [Action.cmdSpeedPWM |c|])
        else
          (⟨2, c, direction⟩, [Action.cmdSpeedPWM 0, Action.brake])
      else
        (⟨2, c, direction⟩, [Action.cmdSpeedPWM 0, Action.brake])
    else if c < actual then
      if sign c = sign actual then
        if direction = false then
          (⟨2, c, direction⟩, [Action.cmdSpeedPWM 0, Action.brake])
        else
          (⟨1, c, direction⟩, [Action.cmdSpeedPWM |c|])
      else
        (⟨2, c, direction⟩, [Action.cmdSpeedPWM 0, Action.brake])
    else
      (⟨0, c, direction⟩, [])
  else if s.tag = 1 then
    if |actual - s.cmd| ≤ 20 then
      (⟨0, s.cmd, direction⟩, [])
    else
      (⟨1, s.cmd, direction⟩, [Action.delayMs 10])
  else if s.tag = 2 then
    if sign s.cmd = sign actual then
      if |actual - s.cmd| ≤ 20 then
        (⟨0, s.cmd, direction⟩,
          [Action.unbrake, Action.cmdSpeedPWM |s.cmd|, Action.delayMs 10])
      else
        (⟨2, s.cmd, direction⟩, [Action.delayMs 10])
    else
      if direction = true then
        if |actual| < 20 then
          (⟨3, s.cmd, direction⟩, [Action.delayMs 10])
        else
          (⟨2, s.cmd, direction⟩, [Action.delayMs 10])
      else
        if |actual| < 20 then
          (⟨4, s.cmd, direction⟩, [Action.delayMs 10])
        else
          (⟨2, s.cmd, direction⟩, [Action.delayMs 10])
  else if s.tag = 3 then
    (⟨1, s.cmd, false⟩,
      [Action.setDir false, Action.unbrake, Action.cmdSpeedPWM |s.cmd|])
  else if s.tag = 4 then
    (⟨1, s.cmd, true⟩,
      [Action.setDir true, Action.unbrake, Action.cmdSpeedPWM |s.cmd|])
  else
    (s, [])

/-- Run of the state machine started in the Accelerating state with stored
command c and direction pin d, fed the actual-speed sequence a; the queue
input is irrelevant while accelerating and is passed as 0. -/
def accelRun (a : ℕ → ℚ) (c : ℚ) (d : Bool) : ℕ → SMState
  | 0 => ⟨1, c, d⟩
  | k + 1 => (smStep (accelRun a c d k) 0 (a k)).1

/-! ## Helper lemmas -/

/-- The clamp bound is strictly positive. -/
lemma omega_max_pos : (0 : ℚ) < omega_max_rad_s := by
  norm_num [omega_max_rad_s, PI]

/-- The output of clamp_omega lies in the closed interval
from -omega_max_rad_s to omega_max_rad_s. -/
lemma clamp_omega_bounds (w : ℚ) :
    -omega_max_rad_s ≤ clamp_omega w ∧ clamp_omega w ≤ omega_max_rad_s := by
  have hM := omega_max_pos
  simp only [clamp_omega]
  split_ifs <;> constructor <;> linarith

/-- clamp_omega is the identity inside the clamp interval. -/
lemma clamp_omega_id (w : ℚ) (h1 : w ≤ omega_max_rad_s)
    (h2 : -omega_max_rad_s ≤ w) : clamp_omega w = w := by
  unfold clamp_omega
  rw [if_neg (not_lt.mpr h1), if_neg (not_lt.mpr h2)]

/-- In the Accelerating state with the deadband met, the machine returns to
Idle and issues nothing. -/
lemma smStep_accel_le (c x n : ℚ) (d : Bool) (h : |x - c| ≤ 20) :
    smStep ⟨1, c, d⟩ n x = (⟨0, c, d⟩, []) := by
  simp [smStep, h]

/-- In the Accelerating state with the deadband unmet, the machine stays in
Accelerating and only sleeps. -/
lemma smStep_accel_gt (c x n : ℚ) (d : Bool) (h : 20 < |x - c|) :
    smStep ⟨1, c, d⟩ n x = (⟨1, c, d⟩, [Action.delayMs 10]) := by
  simp [smStep, not_le.mpr h]

/-! ## Claim theorems -/

/-- Claim C1, counterexample: with the direction pin forward (LOW) and an
edge interval of dt_us = 6000 microseconds, task_readActual publishes
2500 RPM to the Actual Speed register, not 166.67 RPM as the claim states. -/
theorem C1_counterexample :
    (readActualStep ⟨0, 0⟩ 6000 false).2 = some 2500 ∧
    (readActualStep ⟨0, 0⟩ 6000 false).2 ≠ some (16667 / 100) := by
  constructor
  · norm_num [readActualStep, sub32]
  · norm_num [readActualStep, sub32]

/-- Claim C1, amended: when the direction pin reads forward (LOW) and the
interval between two consecutive edge timestamps is dt_us = 6000
microseconds, the speed published to the Actual Speed register is
+2500 RPM (an electrical frequency of 166.67 Hz times the motor constant
15); when the direction pin reads reverse (HIGH) and the interval is the
same, the published speed is -2500 RPM. -/
theorem C1_speed_sign_convention (s : EstState) (t : ℕ)
    (h : sub32 t s.last_time = 6000) :
    readActualStep s t false = (⟨t, 2500⟩, some 2500) ∧
    readActualStep s t true = (⟨t, -2500⟩, some (-2500)) := by
  unfold readActualStep
  rw [h]
  norm_num

/-- Witness for C1 at last_time = 0, current_time = 6000. -/
theorem C1_speed_sign_convention_witness :
    readActualStep ⟨0, 0⟩ 6000 false = (⟨6000, 2500⟩, some 2500) ∧
    readActualStep ⟨0, 0⟩ 6000 true = (⟨6000, -2500⟩, some (-2500)) :=
  C1_speed_sign_convention ⟨0, 0⟩ 6000 (by norm_num [sub32])

/-- Claim C2: in Controller::calculate_omega the effective integration step
is clamped: an elapsed time of at most 0 s is replaced by exactly 0.001 s,
an elapsed time of at least 1 s by exactly 1 s, and an elapsed time
strictly between 0 and 1 s is used as is. -/
theorem C2_dt_clamped (torque dt actual : ℚ) :
    (dt ≤ 0 → clamp_dt dt = 1 / 1000 ∧
      calculate_omega torque dt actual =
        calculate_omega torque (1 / 1000) actual) ∧
    (1 ≤ dt → clamp_dt dt = 1 ∧
      calculate_omega torque dt actual = calculate_omega torque 1 actual) ∧
    (0 < dt → dt < 1 → clamp_dt dt = dt) := by
  refine ⟨fun h => ?_, fun h => ?_, fun h1 h2 => ?_⟩
  · have hc : clamp_dt dt = 1 / 1000 := by
      unfold clamp_dt
      rw [if_pos h]
    have hc2 : clamp_dt (1 / 1000 : ℚ) = 1 / 1000 := by
      unfold clamp_dt
      norm_num
    exact ⟨hc, by unfold calculate_omega; rw [hc, hc2]⟩
  · have hc : clamp_dt dt = 1 := by
      unfold clamp_dt
      rw [if_neg (by linarith), if_pos h]
    have hc2 : clamp_dt (1 : ℚ) = 1 := by
      unfold clamp_dt
      norm_num
    exact ⟨hc, by unfold calculate_omega; rw [hc, hc2]⟩
  · unfold clamp_dt
    rw [if_neg (not_le.mpr h1), if_neg (not_le.mpr h2)]

/-- Witness for C2 at dt = -2, dt = 2 and dt = 1/2. -/
theorem C2_dt_clamped_witness :
    clamp_dt (-2) = 1 / 1000 ∧ clamp_dt 2 = 1 ∧ clamp_dt (1 / 2) = 1 / 2 :=
  ⟨((C2_dt_clamped 0 (-2) 0).1 (by norm_num)).1,
   ((C2_dt_clamped 0 2 0).2.1 (by norm_num)).1,
   (C2_dt_clamped 0 (1 / 2) 0).2.2 (by norm_num) (by norm_num)⟩

/-- Claim C3: for every torque input, elapsed time and actual speed, the
RPM value returned by Controller::calculate_omega lies in the closed
interval from -2500 to 2500 RPM. -/
theorem C3_rpm_bounded (torque dt actual : ℚ) :
    -2500 ≤ calculate_omega torque dt actual ∧
    calculate_omega torque dt actual ≤ 2500 := by
  unfold calculate_omega
  set w := torque / J * clamp_dt dt + actual * (2 * PI / 60) with hw
  obtain ⟨hlo, hhi⟩ := clamp_omega_bounds w
  have hk : (0 : ℚ) < 60 / (2 * PI) := by norm_num [PI]
  have hhi2 : clamp_omega w * (60 / (2 * PI)) ≤
      omega_max_rad_s * (60 / (2 * PI)) :=
    mul_le_mul_of_nonneg_right hhi (le_of_lt hk)
  have hlo2 : -omega_max_rad_s * (60 / (2 * PI)) ≤
      clamp_omega w * (60 / (2 * PI)) :=
    mul_le_mul_of_nonneg_right hlo (le_of_lt hk)
  have hval : omega_max_rad_s * (60 / (2 * PI)) = 2500 := by
    norm_num [omega_max_rad_s, PI]
  constructor <;> nlinarith [hhi2, hlo2, hval]

/-- Claim C4: for a torque command of exactly 0 and an actual speed within
2500 RPM of zero, Controller::calculate_omega returns exactly the actual
speed: the RPM-to-rad/s conversion followed by the rad/s-to-RPM conversion
is the identity, so the speed command equals the last published actual
speed with no drift. -/
theorem C4_zero_torque_identity (dt actual : ℚ) (h : |actual| ≤ 2500) :
    calculate_omega 0 dt actual = actual := by
  obtain ⟨hlo, hhi⟩ := abs_le.mp h
  have hc : (0 : ℚ) < 2 * PI / 60 := by norm_num [PI]
  have h1 : actual * (2 * PI / 60) ≤ omega_max_rad_s := by
    have := mul_le_mul_of_nonneg_right hhi (le_of_lt hc)
    have he : (2500 : ℚ) * (2 * PI / 60) = omega_max_rad_s := by
      unfold omega_max_rad_s
      ring
    linarith
  have h2 : -omega_max_rad_s ≤ actual * (2 * PI / 60) := by
    have := mul_le_mul_of_nonneg_right hlo (le_of_lt hc)
    have he : (-2500 : ℚ) * (2 * PI / 60) = -omega_max_rad_s := by
      unfold omega_max_rad_s
      ring
    linarith
  simp only [calculate_omega, zero_div, zero_mul, zero_add]
  rw [clamp_omega_id _ h1 h2]
  have hu : (2 * PI / 60) * (60 / (2 * PI)) = 1 := by
    norm_num [PI]
  calc actual * (2 * PI / 60) * (60 / (2 * PI))
      = actual * ((2 * PI / 60) * (60 / (2 * PI))) := by ring
    _ = actual := by rw [hu, mul_one]

/-- Witness for C4 at dt = 5, actual = 100. -/
theorem C4_zero_torque_identity_witness :
    calculate_omega 0 5 100 = 100 :=
  C4_zero_torque_identity 5 100 (by rw [abs_le]; constructor <;> norm_num)

/-- Claim C5: in task_readActual, whenever two consecutive edge timestamps
are equal (dt_us = 0), no value is written to the Actual Speed register on
that iteration: the previously published speed persists and only the
stored timestamp advances. -/
theorem C5_zero_dt_no_publish (s : EstState) (t : ℕ) (d : Bool)
    (h : sub32 t s.last_time = 0) :
    readActualStep s t d = (⟨t, s.reg⟩, none) := by
  unfold readActualStep
  rw [h]
  simp

/-- Witness for C5 with two equal timestamps 123. -/
theorem C5_zero_dt_no_publish_witness :
    readActualStep ⟨123, 42⟩ 123 false = (⟨123, 42⟩, none) :=
  C5_zero_dt_no_publish ⟨123, 42⟩ 123 false (by norm_num [sub32])

/-- Claim C6: when the state machine is in Idle (tag 0) and the received
speed command equals the current actual speed exactly, the iteration issues
no hardware actions at all and the state stays Idle with the direction pin
unchanged. -/
theorem C6_idle_idempotent (c c0 : ℚ) (d : Bool) :
    smStep ⟨0, c0, d⟩ c c = (⟨0, c, d⟩, []) := by
  simp [smStep]

/-- Claim C7: from Decelerating (tag 2) with command and actual of opposite
sign and the direction pin forward (LOW): while the actual speed is at
least 20 RPM in magnitude the machine stays in Decelerating issuing only
the 10 ms sleep; on the first iteration with magnitude below 20 RPM it
moves to CrossingPosToNeg (tag 4); and from tag 4 the next iteration
unconditionally sets the direction pin reverse (HIGH), releases the brake,
commands the magnitude of the stored command, and moves to Accelerating. -/
theorem C7_zero_crossing (c r rb n1 n2 n3 r3 : ℚ)
    (hsr : sign c ≠ sign r) (hr : |r| < 20)
    (hsb : sign c ≠ sign rb) (hrb : 20 ≤ |rb|) :
    smStep ⟨2, c, false⟩ n1 rb = (⟨2, c, false⟩, [Action.delayMs 10]) ∧
    smStep ⟨2, c, false⟩ n2 r = (⟨4, c, false⟩, [Action.delayMs 10]) ∧
    smStep ⟨4, c, false⟩ n3 r3 =
      (⟨1, c, true⟩,
        [Action.setDir true, Action.unbrake, Action.cmdSpeedPWM |c|]) := by
  refine ⟨?_, ?_, ?_⟩
  · simp [smStep, hsb, not_lt.mpr hrb]
  · simp [smStep, hsr, hr]
  · simp [smStep]

/-- Witness for C7 with stored command -100, far actual 100, near actual 10. -/
theorem C7_zero_crossing_witness :
    smStep ⟨2, -100, false⟩ 0 100 =
      (⟨2, -100, false⟩, [Action.delayMs 10]) ∧
    smStep ⟨2, -100, false⟩ 0 10 =
      (⟨4, -100, false⟩, [Action.delayMs 10]) ∧
    smStep ⟨4, -100, false⟩ 0 0 =
      (⟨1, -100, true⟩,
        [Action.setDir true, Action.unbrake,
         Action.cmdSpeedPWM |(-100 : ℚ)|]) :=
  C7_zero_crossing (-100) 10 100 0 0 0 0
    (by norm_num [sign]) (by rw [abs_lt]; constructor <;> norm_num)
    (by norm_num [sign]) (by rw [abs_of_nonneg] <;> norm_num)

/-- Claim C9: for a run started in Accelerating fed any actual-speed
trajectory, in particular one approaching the command in fixed 1 RPM
steps: the machine is still in Accelerating (with stored command and
direction unchanged) after every prefix along which the deadband
condition fails, and it transitions to Idle exactly at the first iteration
whose actual speed is within 20 RPM of the command, never earlier. -/
theorem C9_deadband_termination (a : ℕ → ℚ) (c : ℚ) (d : Bool) (k : ℕ)
    (h : ∀ j < k, 20 < |a j - c|) :
    accelRun a c d k = ⟨1, c, d⟩ ∧
    (|a k - c| ≤ 20 → accelRun a c d (k + 1) = ⟨0, c, d⟩) := by
  induction k with
  | zero =>
      refine ⟨rfl, fun hk => ?_⟩
      show (smStep (accelRun a c d 0) 0 (a 0)).1 = (⟨0, c, d⟩ : SMState)
      rw [show accelRun a c d 0 = (⟨1, c, d⟩ : SMState) from rfl,
        smStep_accel_le c (a 0) 0 d hk]
  | succ k ih =>
      have hk' : ∀ j < k, 20 < |a j - c| :=
        fun j hj => h j (Nat.lt_succ_of_lt hj)
      have hA : accelRun a c d k = ⟨1, c, d⟩ := (ih hk').1
      have hkk : 20 < |a k - c| := h k (Nat.lt_succ_self k)
      have hA1 : accelRun a c d (k + 1) = ⟨1, c, d⟩ := by
        show (smStep (accelRun a c d k) 0 (a k)).1 = _
        rw [hA, smStep_accel_gt c (a k) 0 d hkk]
      refine ⟨hA1, fun hle => ?_⟩
      show (smStep (accelRun a c d (k + 1)) 0 (a (k + 1))).1 = _
      rw [hA1, smStep_accel_le c (a (k + 1)) 0 d hle]

/-- Witness for C9: actual speed j at iteration j, command 30; the machine
is still Accelerating after ten iterations (differences 30 down to 21, all
above the deadband) and is Idle right after the iteration with difference
exactly 20. -/
theorem C9_deadband_termination_witness :
    accelRun (fun j => (j : ℚ)) 30 false 10 = ⟨1, 30, false⟩ ∧
    accelRun (fun j => (j : ℚ)) 30 false 11 = ⟨0, 30, false⟩ :=
  ⟨(C9_deadband_termination (fun j => (j : ℚ)) 30 false 10
      (by intro j hj; interval_cases j <;> norm_num)).1,
   (C9_deadband_termination (fun j => (j : ℚ)) 30 false 10
      (by intro j hj; interval_cases j <;> norm_num)).2 (by norm_num)⟩

/-- Claim C10: on every state and every input, each cmd_speed_PWM action
issued by one iteration of the state machine carries a non-negative RPM
argument, so the frequency written to CLKIN by Driver::cmd_speed_PWM is
non-negative as well: the sign of the commanded speed reaches the hardware
only through the direction pin. -/
theorem C10_pwm_arg_nonneg (s : SMState) (n r v : ℚ)
    (hv : Action.cmdSpeedPWM v ∈ (smStep s n r).2) :
    0 ≤ v ∧ 0 ≤ cmd_speed_PWM v := by
  have h0 : 0 ≤ v := by
    simp only [smStep] at hv
    split_ifs at hv <;> simp at hv <;> subst hv <;> positivity
  exact ⟨h0, by unfold cmd_speed_PWM; positivity⟩

/-- Witness for C10: from Idle with command -100 and actual 0 the machine
issues cmd_speed_PWM 0 among its actions. -/
theorem C10_pwm_arg_nonneg_witness :
    (0 : ℚ) ≤ 0 ∧ (0 : ℚ) ≤ cmd_speed_PWM 0 :=
  C10_pwm_arg_nonneg ⟨0, 0, false⟩ (-100) 0 0 (by decide)

/-- Claim C8: drv_write 0x03 0xFC2 transmits exactly the three bytes 0x03
(write-mode header: top bit 0, low 7 bits the address), 0x0F (value MSB)
and 0xC2 (value LSB), inside the chip-select window with the 1 us setup
delay, 1 us hold delay and 5 us recovery delay. -/
theorem C8_drv_write_frame :
    transferredBytes (drv_write 0x03 0xFC2) = [0x03, 0x0F, 0xC2] ∧
    drv_write 0x03 0xFC2 =
      [SPIEvent.beginTransaction 10000,
       SPIEvent.csAssert,
       SPIEvent.delayUs 1,
       SPIEvent.transferByte 0x03,
       SPIEvent.transferByte 0x0F,
       SPIEvent.transferByte 0xC2,
       SPIEvent.delayUs 1,
       SPIEvent.csDeassert,
       SPIEvent.endTransaction,
       SPIEvent.delayUs 5] := by
  constructor <;> rfl

end MotorCtrl
